import Mathlib

/-!
# NVIC and SysTick drivers of the Cortex-M4 project: a shallow embedding

Embedded sources: `NVIC.c`, `SysTick.c`, `SysTick.h`.

Conventions of the embedding.

* A `uint32` value is a natural number below `2 ^ 32`; every C operation whose
  result could leave that range is followed by an explicit `% 2 ^ 32`.  The
  operands of `<<` and `~` in the drivers are promoted to `int`; the embedding
  gives them the 32-bit pattern the target computes (a left shift keeps the low
  32 bits, a shift by 32 or more yields 0, `~` flips all 32 bits).
* The registers reached through computed addresses are word cells indexed by
  their byte address (`Regs.mem`).  All addresses the drivers compute are word
  aligned, so distinct addresses never overlap.  A cell holds what was last
  stored in it, and a read yields the low 32 bits of the cell.
* Every bus access is appended to `Regs.log`, so "touches no address" is a
  statement about the log.
* Identifiers and priorities are natural numbers: their C types
  (`NVIC_IRQType`, `NVIC_IRQPriorityType`, `NVIC_ExceptionType`,
  `NVIC_ExceptionPriorityType`) are declared in `NVIC.h`, which is not embedded.
* The three SysTick registers are named cells of the timer state.  The count
  flag is raised by the hardware, so the values read by the polling loop of
  `SysTick_StartBusyWait` are an input of the embedding (`hw`); every other read
  of the control register yields what software last wrote.
* A function pointer is the address of the function; calling through it is
  recorded as an event, the body of the callback belongs to the application.
-/

namespace CortexM4

/-! ## 32-bit word operations -/

/-- The C expression `x << n` on a 32-bit operand: the low 32 bits of the shifted value. -/
def shl32 (x n : Nat) : Nat := (x <<< n) % 2 ^ 32

/-- The C expression `~x` read as a 32-bit word: every one of the 32 bits flipped. -/
def not32 (x : Nat) : Nat := (2 ^ 32 - 1) ^^^ (x % 2 ^ 32)

/-- The C expression `x - 1` in unsigned 32-bit arithmetic (wraps at zero). -/
def dec32 (x : Nat) : Nat := (x % 2 ^ 32 + (2 ^ 32 - 1)) % 2 ^ 32

/-! ## The register bus -/

/-- One access to a memory-mapped register. -/
inductive Access where
  | read (addr : Nat)
  | write (addr : Nat) (val : Nat)
  deriving DecidableEq

/-- Word cells indexed by byte address, with the history of accesses made so far. -/
structure Regs where
  mem : Nat → Nat
  log : List Access

/-- The value a `volatile uint32` read of address `a` yields. -/
def Regs.peek (s : Regs) (a : Nat) : Nat := s.mem a % 2 ^ 32

/-- A `volatile uint32` read: the value and the state with the read recorded. -/
def Regs.load (s : Regs) (a : Nat) : Nat × Regs :=
  (s.peek a, { s with log := s.log ++ [Access.read a] })

/-- A `volatile uint32` write of `v` to address `a`. -/
def Regs.store (s : Regs) (a v : Nat) : Regs :=
  { mem := Function.update s.mem a (v % 2 ^ 32)
    log := s.log ++ [Access.write a (v % 2 ^ 32)] }

/-- Bit `i` of the word at address `a`. -/
def Regs.bit (s : Regs) (a i : Nat) : Bool := (s.peek a).testBit i

/-- A bank in which every cell is zero and nothing has been accessed. -/
def Regs.zero : Regs := { mem := fun _ => 0, log := [] }

/-- A bank in which every cell holds `v` and nothing has been accessed. -/
def Regs.const (v : Nat) : Regs := { mem := fun _ => v, log := [] }

/-! ## Constants of headers that are not among the sources -/

/-- The values `NVIC.c` takes from `NVIC.h` and `tm4c123gh6pm_registers.h`:
the three fault-exception identifiers and the address behind the
`NVIC_SYSTEM_SYSHNDCTRL` register macro. -/
structure Target where
  EXCEPTION_MEM_FAULT_TYPE : Nat
  EXCEPTION_BUS_FAULT_TYPE : Nat
  EXCEPTION_USAGE_FAULT_TYPE : Nat
  NVIC_SYSTEM_SYSHNDCTRL : Nat

/-- The Cortex-M4 values: exceptions 4, 5, 6 and the register at `0xE000ED24`. -/
def Target.tm4c123 : Target :=
  { EXCEPTION_MEM_FAULT_TYPE := 4
    EXCEPTION_BUS_FAULT_TYPE := 5
    EXCEPTION_USAGE_FAULT_TYPE := 6
    NVIC_SYSTEM_SYSHNDCTRL := 0xE000ED24 }

/-! ## NVIC.c -/

/-- `NVIC_EnableIRQ` (NVIC.c 26-33). -/
def NVIC_EnableIRQ (IRQ_Num : Nat) (s : Regs) : Regs :=
  if IRQ_Num ≤ 136 then
    let a := 0xE000E100 + ((IRQ_Num >>> 5) <<< 2)
    let (v, s1) := s.load a
    s1.store a (v ||| shl32 1 (IRQ_Num - ((IRQ_Num >>> 5) <<< 5)))
  else s

/-- `NVIC_DisableIRQ` (NVIC.c 45-52). -/
def NVIC_DisableIRQ (IRQ_Num : Nat) (s : Regs) : Regs :=
  if IRQ_Num ≤ 136 then
    let a := 0xE000E100 + ((IRQ_Num >>> 5) <<< 2)
    let (v, s1) := s.load a
    s1.store a (v &&& not32 (shl32 1 (IRQ_Num - ((IRQ_Num >>> 5) <<< 5))))
  else s

/-- `NVIC_SetPriorityIRQ` (NVIC.c 65-86), with its two branches kept apart. -/
def NVIC_SetPriorityIRQ (IRQ_Num IRQ_Priority : Nat) (s : Regs) : Regs :=
  if IRQ_Num ≤ 136 then
    if IRQ_Num >>> 2 = 0 then
      let a := 0xE000E100 + ((IRQ_Num >>> 2) <<< 2)
      let (v, s1) := s.load a
      s1.store a ((v &&& not32 (shl32 0x7 (IRQ_Num * 8 + 5)))
        ||| shl32 IRQ_Priority (IRQ_Num * 8 + 5))
    else
      let a := 0xE000E100 + ((IRQ_Num >>> 2) <<< 2)
      let (v, s1) := s.load a
      s1.store a ((v &&& not32 (shl32 0x7 ((IRQ_Num % 4) * 8 + 5)))
        ||| shl32 IRQ_Priority ((IRQ_Num % 4) * 8 + 5))
  else s

/-- `NVIC_EnableException` (NVIC.c 98-108). -/
def NVIC_EnableException (T : Target) (Exception_Num : Nat) (s : Regs) : Regs :=
  if Exception_Num = T.EXCEPTION_MEM_FAULT_TYPE
      ∨ Exception_Num = T.EXCEPTION_BUS_FAULT_TYPE
      ∨ Exception_Num = T.EXCEPTION_USAGE_FAULT_TYPE then
    let (v, s1) := s.load T.NVIC_SYSTEM_SYSHNDCTRL
    s1.store T.NVIC_SYSTEM_SYSHNDCTRL (v ||| shl32 1 (Exception_Num + 12))
  else s

/-- `NVIC_DisableException` (NVIC.c 120-130). -/
def NVIC_DisableException (T : Target) (Exception_Num : Nat) (s : Regs) : Regs :=
  if Exception_Num = T.EXCEPTION_MEM_FAULT_TYPE
      ∨ Exception_Num = T.EXCEPTION_BUS_FAULT_TYPE
      ∨ Exception_Num = T.EXCEPTION_USAGE_FAULT_TYPE then
    let (v, s1) := s.load T.NVIC_SYSTEM_SYSHNDCTRL
    s1.store T.NVIC_SYSTEM_SYSHNDCTRL (v &&& not32 (shl32 1 (Exception_Num + 12)))
  else s

/-- `NVIC_SetPriorityException` (NVIC.c 144-154). -/
def NVIC_SetPriorityException (Exception_Num Exception_Priority : Nat) (s : Regs) : Regs :=
  if Exception_Num ≤ 15 then
    let a := 0xE000ED14 + ((Exception_Num >>> 2) <<< 2)
    let (v, s1) := s.load a
    s1.store a ((v &&& not32 (shl32 0x7 ((Exception_Num % 4) * 8 + 5)))
      ||| shl32 Exception_Priority ((Exception_Num % 4) * 8 + 5))
  else s

/-! ## Reading fields of a word -/

/-- Byte slot `k` (0..3) of a 32-bit word. -/
def byteSlot (w k : Nat) : Nat := (w >>> (8 * k)) % 256

/-- Bits [7:5] of byte slot `k` of a word: the priority field of that slot. -/
def prioField (w k : Nat) : Nat := (w >>> (8 * k + 5)) % 8

/-! ## SysTick.h and SysTick.c -/

/-- `F_CPU` (SysTick.h 24). -/
def F_CPU : Nat := 16000000

/-- Modelled from the spec: `NULL_PTR` comes from `std_types.h`, which is not among the
sources; it is the null reference, address zero. -/
def NULL_PTR : Nat := 0

/-- The three SysTick registers, named as the register macros name them. -/
inductive SysTickReg where
  | CTRL
  | RELOAD
  | CURRENT
  deriving DecidableEq

/-- What the timer driver does that is visible outside it: a register write, or a call
through the stored function pointer. -/
inductive Event where
  | write (r : SysTickReg) (v : Nat)
  | call (fn : Nat)
  deriving DecidableEq

/-- The timer: its three registers (cells holding what software last wrote), the file-level
variable `g_callBackPtr` (a function address) and the history of events. -/
structure SysTick where
  SYSTICK_CTRL_REG : Nat
  SYSTICK_RELOAD_REG : Nat
  SYSTICK_CURRENT_REG : Nat
  g_callBackPtr : Nat
  trace : List Event

/-- The state at program start: registers as the hardware left them, `g_callBackPtr`
initialised to `NULL_PTR` (SysTick.c 22), nothing done yet. -/
def SysTick.boot (ctrl reload current : Nat) : SysTick :=
  { SYSTICK_CTRL_REG := ctrl
    SYSTICK_RELOAD_REG := reload
    SYSTICK_CURRENT_REG := current
    g_callBackPtr := NULL_PTR
    trace := [] }

/-- A read of the control register cell. -/
def SysTick.readCtrl (s : SysTick) : Nat := s.SYSTICK_CTRL_REG % 2 ^ 32

/-- A write to the control register. -/
def SysTick.writeCtrl (s : SysTick) (v : Nat) : SysTick :=
  { s with SYSTICK_CTRL_REG := v % 2 ^ 32
           trace := s.trace ++ [Event.write SysTickReg.CTRL (v % 2 ^ 32)] }

/-- A write to the reload register. -/
def SysTick.writeReload (s : SysTick) (v : Nat) : SysTick :=
  { s with SYSTICK_RELOAD_REG := v % 2 ^ 32
           trace := s.trace ++ [Event.write SysTickReg.RELOAD (v % 2 ^ 32)] }

/-- A write to the current-value register. -/
def SysTick.writeCurrent (s : SysTick) (v : Nat) : SysTick :=
  { s with SYSTICK_CURRENT_REG := v % 2 ^ 32
           trace := s.trace ++ [Event.write SysTickReg.CURRENT (v % 2 ^ 32)] }

/-- The functions called through the pointer so far, oldest first. -/
def SysTick.calls (s : SysTick) : List Nat :=
  s.trace.filterMap fun e => match e with
    | Event.call fn => some fn
    | Event.write _ _ => none

/-- `SysTick_Handler` (SysTick.c 39-46). -/
def SysTick_Handler (s : SysTick) : SysTick :=
  if s.g_callBackPtr ≠ NULL_PTR then
    { s with trace := s.trace ++ [Event.call s.g_callBackPtr] }
  else s

/-- `SysTick_SetCallBack` (SysTick.c 58-62). -/
def SysTick_SetCallBack (Ptr2Func : Nat) (s : SysTick) : SysTick :=
  { s with g_callBackPtr := Ptr2Func }

/-- `SysTick_Stop` (SysTick.c 130-134). -/
def SysTick_Stop (s : SysTick) : SysTick :=
  s.writeCtrl (s.readCtrl &&& not32 0x01)

/-- `SysTick_Start` (SysTick.c 146-150). -/
def SysTick_Start (s : SysTick) : SysTick :=
  s.writeCtrl (s.readCtrl ||| 0x01)

/-- `SysTick_Init` (SysTick.c 76-87). -/
def SysTick_Init (a_TimeInMilliSeconds : Nat) (s : SysTick) : SysTick :=
  let s := s.writeCtrl 0
  let s := s.writeReload (dec32 ((a_TimeInMilliSeconds * (F_CPU / 1000)) % 2 ^ 32))
  let s := s.writeCurrent 0
  let s := s.writeCtrl (s.readCtrl ||| 0x06)
  SysTick_Start s

/-- The part of `SysTick_StartBusyWait` that precedes the polling loop (SysTick.c 104-112). -/
def SysTick_StartBusyWait_setup (a_TimeInMilliSeconds : Nat) (s : SysTick) : SysTick :=
  let s := s.writeCtrl 0
  let s := s.writeReload (dec32 ((a_TimeInMilliSeconds * (F_CPU / 1000)) % 2 ^ 32))
  let s := s.writeCurrent 0
  let s := s.writeCtrl (s.readCtrl ||| 0x04)
  SysTick_Start s

/-- The loop `while(!(SYSTICK_CTRL_REG & (1<<16)));` (SysTick.c 114).  The count flag is
raised by the hardware, so the value of the `n`-th read of the control register made by
the loop is supplied from outside as `hw n`.  The loop is run for at most `fuel` reads,
starting with read number `i`; the result is the number of the read that ended it. -/
def SysTick_poll (hw : Nat → Nat) : Nat → Nat → Option Nat
  | 0, _ => none
  | fuel + 1, i =>
    if (hw i % 2 ^ 32) &&& shl32 1 16 = 0 then SysTick_poll hw fuel (i + 1)
    else some i

/-- `SysTick_StartBusyWait` (SysTick.c 102-118): the state on return together with the
number of the polling read that ended the loop, or `none` when the loop is still running
after `fuel` reads. -/
def SysTick_StartBusyWait (a_TimeInMilliSeconds : Nat) (hw : Nat → Nat) (fuel : Nat)
    (s : SysTick) : Option (SysTick × Nat) :=
  match SysTick_poll hw fuel 0 with
  | none => none
  | some n => some (SysTick_Stop (SysTick_StartBusyWait_setup a_TimeInMilliSeconds s), n)

/-- `SysTick_DeInit` (SysTick.c 163-168). -/
def SysTick_DeInit (s : SysTick) : SysTick :=
  let s := s.writeCtrl 0
  let s := s.writeReload 0
  s.writeCurrent 0

/-- The state after `n` successive runs of the handler. -/
def SysTick_Handler_times : Nat → SysTick → SysTick
  | 0, s => s
  | n + 1, s => SysTick_Handler_times n (SysTick_Handler s)

/-! ## Pieces of the drivers named for comparison -/

/-- The statement of the first branch of `NVIC_SetPriorityIRQ` (NVIC.c 72-75), the one taken
when `IRQ_Num >> 2` is zero: the shift is `IRQ_Num * 8 + 5`. -/
def NVIC_SetPriorityIRQ_firstBranch (IRQ_Num IRQ_Priority : Nat) (s : Regs) : Regs :=
  let a := 0xE000E100 + ((IRQ_Num >>> 2) <<< 2)
  let (v, s1) := s.load a
  s1.store a ((v &&& not32 (shl32 0x7 (IRQ_Num * 8 + 5)))
    ||| shl32 IRQ_Priority (IRQ_Num * 8 + 5))

/-- The statement of the second branch of `NVIC_SetPriorityIRQ` (NVIC.c 79-82): the shift is
`(IRQ_Num % 4) * 8 + 5`. -/
def NVIC_SetPriorityIRQ_secondBranch (IRQ_Num IRQ_Priority : Nat) (s : Regs) : Regs :=
  let a := 0xE000E100 + ((IRQ_Num >>> 2) <<< 2)
  let (v, s1) := s.load a
  s1.store a ((v &&& not32 (shl32 0x7 ((IRQ_Num % 4) * 8 + 5)))
    ||| shl32 IRQ_Priority ((IRQ_Num % 4) * 8 + 5))

/-- The single-branch priority setter in the words of the specification: for an identifier
up to `limit`, select the word `id / 4` of the bank at `base` and byte slot `id mod 4`, clear
bits [7:5] of that slot and OR the priority in at bit 5 of the slot; any other identifier is
ignored.  `NVIC_SetPriorityException` is this with base `0xE000ED14` and limit 15. -/
def setPrioritySingleBranch (base limit id priority : Nat) (s : Regs) : Regs :=
  if id ≤ limit then
    let a := base + 4 * (id / 4)
    let (v, s1) := s.load a
    s1.store a ((v &&& not32 (shl32 0x7 (8 * (id % 4) + 5)))
      ||| shl32 priority (8 * (id % 4) + 5))
  else s

/-- One call of a timer operation other than `SysTick_SetCallBack`.  A busy wait carries
the values its polling reads will return and the number of reads it is observed for. -/
inductive SysTickOp where
  | init (d : Nat)
  | busyWait (d : Nat) (hw : Nat → Nat) (fuel : Nat)
  | start
  | stop
  | deInit
  | handler

/-- The state after one operation, or `none` while a busy wait has not returned. -/
def SysTickOp.apply : SysTickOp → SysTick → Option SysTick
  | SysTickOp.init d, s => some (SysTick_Init d s)
  | SysTickOp.busyWait d hw fuel, s => (SysTick_StartBusyWait d hw fuel s).map Prod.fst
  | SysTickOp.start, s => some (SysTick_Start s)
  | SysTickOp.stop, s => some (SysTick_Stop s)
  | SysTickOp.deInit, s => some (SysTick_DeInit s)
  | SysTickOp.handler, s => some (SysTick_Handler s)

/-- The state after a sequence of operations, run in order. -/
def SysTick_run : List SysTickOp → SysTick → Option SysTick
  | [], s => some s
  | op :: ops, s =>
    match op.apply s with
    | none => none
    | some s1 => SysTick_run ops s1

/-- The values written to the control register among a list of events, oldest first. -/
def ctrlWrites (es : List Event) : List Nat :=
  es.filterMap fun e => match e with
    | Event.write SysTickReg.CTRL v => some v
    | _ => none

/-! ## Bit-level facts about the word operations -/

theorem testBit_shl32 (x n j : Nat) :
    (shl32 x n).testBit j = (decide (j < 32) && (decide (n ≤ j) && x.testBit (j - n))) := by
  simp only [shl32, Nat.testBit_mod_two_pow, Nat.testBit_shiftLeft, ge_iff_le]

theorem testBit_not32 (x j : Nat) :
    (not32 x).testBit j = (decide (j < 32) && !x.testBit j) := by
  simp only [not32, Nat.testBit_xor, Nat.testBit_two_pow_sub_one, Nat.testBit_mod_two_pow]
  by_cases h : j < 32 <;> simp [h]

theorem testBit_one (j : Nat) : (1 : Nat).testBit j = decide (j = 0) := by
  have := @Nat.testBit_two_pow 0 j
  simpa [eq_comm] using this

/-! ## Facts about the register bus -/

theorem Regs.peek_store (s : Regs) (a v b : Nat) :
    (s.store a v).peek b = if b = a then v % 2 ^ 32 else s.peek b := by
  unfold Regs.store Regs.peek
  by_cases h : b = a
  · subst h; simp
  · simp [Function.update_noteq h, h]

theorem Regs.bit_store (s : Regs) (a v b j : Nat) :
    (s.store a v).bit b j = if b = a then (decide (j < 32) && v.testBit j) else s.bit b j := by
  unfold Regs.bit
  rw [Regs.peek_store]
  by_cases h : b = a
  · simp only [h, if_true, Nat.testBit_mod_two_pow]
  · simp only [h, if_false]

theorem Regs.bit_high (s : Regs) (a j : Nat) (h : 32 ≤ j) : s.bit a j = false := by
  unfold Regs.bit Regs.peek
  rw [Nat.testBit_mod_two_pow]
  simp; omega

theorem Regs.peek_load (s : Regs) (a b : Nat) : (s.load a).2.peek b = s.peek b := rfl

theorem Regs.bit_load (s : Regs) (a b j : Nat) : (s.load a).2.bit b j = s.bit b j := rfl

theorem irq_bank (n : Nat) : (n >>> 5) <<< 2 = 4 * (n / 32) := by
  rw [Nat.shiftRight_eq_div_pow, Nat.shiftLeft_eq]; omega

theorem irq_bitpos (n : Nat) : n - ((n >>> 5) <<< 5) = n % 32 := by
  rw [Nat.shiftRight_eq_div_pow, Nat.shiftLeft_eq]; omega

theorem prio_bank (n : Nat) : (n >>> 2) <<< 2 = 4 * (n / 4) := by
  rw [Nat.shiftRight_eq_div_pow, Nat.shiftLeft_eq]; omega

/-- Every bit of every word after `NVIC_EnableIRQ` with an identifier in range. -/
theorem NVIC_EnableIRQ_bit (n : Nat) (h : n ≤ 136) (s : Regs) (a j : Nat) :
    (NVIC_EnableIRQ n s).bit a j =
      if a = 0xE000E100 + 4 * (n / 32) ∧ j = n % 32 then true else s.bit a j := by
  simp only [NVIC_EnableIRQ, h, if_true, irq_bank, irq_bitpos, Regs.load, Regs.bit_store]
  by_cases ha : a = 0xE000E100 + 4 * (n / 32)
  · subst ha
    simp only [if_true, true_and, Nat.testBit_or, testBit_shl32, testBit_one]
    by_cases hj : j = n % 32
    · subst hj
      have : n % 32 < 32 := Nat.mod_lt _ (by decide)
      simp [this]
    · by_cases hj32 : j < 32
      · have : ¬ (j - n % 32 = 0 ∧ n % 32 ≤ j) := by omega
        simp only [hj, if_false, hj32, decide_True, Bool.true_and]
        have h2 : (decide (n % 32 ≤ j) && decide (j - n % 32 = 0)) = false := by
          simp; omega
        rw [h2, Bool.or_false]; rfl
      · simp only [hj, if_false, hj32, decide_False, Bool.false_and]
        exact (Regs.bit_high _ _ _ (by omega)).symm
  · simp only [ha, if_false, false_and]; rfl

/-- Every bit of every word after `NVIC_DisableIRQ` with an identifier in range. -/
theorem NVIC_DisableIRQ_bit (n : Nat) (h : n ≤ 136) (s : Regs) (a j : Nat) :
    (NVIC_DisableIRQ n s).bit a j =
      if a = 0xE000E100 + 4 * (n / 32) ∧ j = n % 32 then false else s.bit a j := by
  simp only [NVIC_DisableIRQ, h, if_true, irq_bank, irq_bitpos, Regs.load, Regs.bit_store]
  by_cases ha : a = 0xE000E100 + 4 * (n / 32)
  · subst ha
    simp only [if_true, true_and, Nat.testBit_and, testBit_not32, testBit_shl32, testBit_one]
    by_cases hj : j = n % 32
    · subst hj
      have : n % 32 < 32 := Nat.mod_lt _ (by decide)
      simp [this]
    · by_cases hj32 : j < 32
      · simp only [hj, if_false, hj32, decide_True, Bool.true_and]
        have h2 : (decide (n % 32 ≤ j) && decide (j - n % 32 = 0)) = false := by
          simp; omega
        rw [h2]; simp; rfl
      · simp only [hj, if_false, hj32, decide_False, Bool.false_and]
        exact (Regs.bit_high _ _ _ (by omega)).symm
  · simp only [ha, if_false, false_and]; rfl

theorem testBit_seven (j : Nat) : (7 : Nat).testBit j = decide (j < 3) :=
  Nat.testBit_two_pow_sub_one 3 j

/-- Bit `j` of the word `(v & ~(0x7 << sh)) | (p << sh)` that the priority setters store. -/
theorem prioWord_testBit (v sh p j : Nat) :
    ((v &&& not32 (shl32 0x7 sh)) ||| shl32 p sh).testBit j =
      ((v.testBit j && (decide (j < 32) && !(decide (sh ≤ j) && decide (j - sh < 3))))
        || (decide (j < 32) && (decide (sh ≤ j) && p.testBit (j - sh)))) := by
  simp only [Nat.testBit_or, Nat.testBit_and, testBit_not32, testBit_shl32, testBit_seven]
  by_cases h1 : j < 32 <;> simp [h1]

/-- The two branches of `NVIC_SetPriorityIRQ` store the same word: below 4 the identifier is
its own remainder modulo 4. -/
theorem NVIC_SetPriorityIRQ_eq (n p : Nat) (s : Regs) :
    NVIC_SetPriorityIRQ n p s =
      if n ≤ 136 then
        (s.load (0xE000E100 + 4 * (n / 4))).2.store (0xE000E100 + 4 * (n / 4))
          ((s.peek (0xE000E100 + 4 * (n / 4)) &&& not32 (shl32 0x7 ((n % 4) * 8 + 5)))
            ||| shl32 p ((n % 4) * 8 + 5))
      else s := by
  unfold NVIC_SetPriorityIRQ
  by_cases h : n ≤ 136
  · simp only [h, if_true, prio_bank, Regs.load]
    by_cases h4 : n >>> 2 = 0
    · have hlt : n < 4 := by
        rw [Nat.shiftRight_eq_div_pow] at h4
        omega
      have hm : n % 4 = n := Nat.mod_eq_of_lt hlt
      simp only [h4, if_true, hm]
    · simp only [h4, if_false]
  · simp only [h, if_false]

/-- Every bit of every word after `NVIC_SetPriorityIRQ` with an identifier in range, for
any priority value. -/
theorem NVIC_SetPriorityIRQ_bit (n : Nat) (h : n ≤ 136) (p : Nat) (s : Regs) (a j : Nat) :
    (NVIC_SetPriorityIRQ n p s).bit a j =
      if a = 0xE000E100 + 4 * (n / 4) then
        ((s.bit a j && !(decide ((n % 4) * 8 + 5 ≤ j) && decide (j - ((n % 4) * 8 + 5) < 3)))
          || (decide (j < 32) && (decide ((n % 4) * 8 + 5 ≤ j)
              && p.testBit (j - ((n % 4) * 8 + 5)))))
      else s.bit a j := by
  rw [NVIC_SetPriorityIRQ_eq]
  simp only [h, if_true, Regs.load, Regs.bit_store]
  by_cases ha : a = 0xE000E100 + 4 * (n / 4)
  · subst ha
    simp only [if_true, prioWord_testBit]
    by_cases hj : j < 32
    · simp [hj, Regs.bit]
    · have := Regs.bit_high s (0xE000E100 + 4 * (n / 4)) j (by omega)
      simp [hj, this]
  · simp only [ha, if_false]; rfl

/-- Every bit of every word after `NVIC_SetPriorityException` with an identifier in range,
for any priority value. -/
theorem NVIC_SetPriorityException_bit (n : Nat) (h : n ≤ 15) (p : Nat) (s : Regs)
    (a j : Nat) :
    (NVIC_SetPriorityException n p s).bit a j =
      if a = 0xE000ED14 + 4 * (n / 4) then
        ((s.bit a j && !(decide ((n % 4) * 8 + 5 ≤ j) && decide (j - ((n % 4) * 8 + 5) < 3)))
          || (decide (j < 32) && (decide ((n % 4) * 8 + 5 ≤ j)
              && p.testBit (j - ((n % 4) * 8 + 5)))))
      else s.bit a j := by
  simp only [NVIC_SetPriorityException, h, if_true, prio_bank, Regs.load, Regs.bit_store]
  by_cases ha : a = 0xE000ED14 + 4 * (n / 4)
  · subst ha
    simp only [if_true, prioWord_testBit]
    by_cases hj : j < 32
    · simp [hj, Regs.bit]
    · have := Regs.bit_high s (0xE000ED14 + 4 * (n / 4)) j (by omega)
      simp [hj, this]
  · simp only [ha, if_false]; rfl

/-- Two words below `2 ^ 32` with the same bits are equal; stated for register reads. -/
theorem Regs.peek_eq_of_bit (s t : Regs) (a b : Nat) (h : ∀ j, s.bit a j = t.bit b j) :
    s.peek a = t.peek b :=
  Nat.eq_of_testBit_eq h

theorem testBit_byteSlot (w k i : Nat) :
    (byteSlot w k).testBit i = (decide (i < 8) && w.testBit (8 * k + i)) := by
  unfold byteSlot
  rw [show (256 : Nat) = 2 ^ 8 from rfl, Nat.testBit_mod_two_pow, Nat.testBit_shiftRight]

theorem testBit_prioField (w k i : Nat) :
    (prioField w k).testBit i = (decide (i < 3) && w.testBit (8 * k + 5 + i)) := by
  unfold prioField
  rw [show (8 : Nat) = 2 ^ 3 from rfl, Nat.testBit_mod_two_pow, Nat.testBit_shiftRight]

theorem testBit_of_lt_eight (p i : Nat) (hp : p < 8) (hi : 3 ≤ i) : p.testBit i = false := by
  apply Nat.testBit_lt_two_pow
  calc p < 2 ^ 3 := hp
    _ ≤ 2 ^ i := Nat.pow_le_pow_right (by decide) hi

/-! ## NVIC: enable, disable and priority of peripheral interrupts -/

/-- C1: for every IRQ identifier `n` in 0..136 and every register state, after
`NVIC_EnableIRQ n` bit `n mod 32` of the word at `0xE000E100 + 4 * (n div 32)` reads 1,
and after a following `NVIC_DisableIRQ n` the same bit reads 0. -/
theorem C1_enable_sets_disable_clears (n : Nat) (h : n ≤ 136) (s : Regs) :
    (NVIC_EnableIRQ n s).bit (0xE000E100 + 4 * (n / 32)) (n % 32) = true ∧
    (NVIC_DisableIRQ n (NVIC_EnableIRQ n s)).bit (0xE000E100 + 4 * (n / 32)) (n % 32)
      = false := by
  constructor
  · rw [NVIC_EnableIRQ_bit n h]; simp
  · rw [NVIC_DisableIRQ_bit n h]; simp

/-- C1 at IRQ 37 (bank 1, bit 5) on a bank of zeros. -/
theorem C1_enable_sets_disable_clears_witness :
    37 ≤ 136 ∧
    ((NVIC_EnableIRQ 37 Regs.zero).bit (0xE000E100 + 4 * (37 / 32)) (37 % 32) = true ∧
     (NVIC_DisableIRQ 37 (NVIC_EnableIRQ 37 Regs.zero)).bit (0xE000E100 + 4 * (37 / 32))
       (37 % 32) = false) :=
  ⟨by decide, C1_enable_sets_disable_clears 37 (by decide) Regs.zero⟩

/-- C2: for every IRQ identifier `n` in 0..136, every priority `p` in 0..7 and every
register state, after `NVIC_SetPriorityIRQ n p` bits [7:5] of byte slot `n mod 4` of the
word at `0xE000E100 + 4 * (n div 4)` equal `p`, and the other three bytes of that word have
the values they had before the call. -/
theorem C2_priority_written_neighbours_kept (n : Nat) (h : n ≤ 136) (p : Nat) (hp : p < 8)
    (s : Regs) :
    prioField ((NVIC_SetPriorityIRQ n p s).peek (0xE000E100 + 4 * (n / 4))) (n % 4) = p ∧
    ∀ k, k < 4 → k ≠ n % 4 →
      byteSlot ((NVIC_SetPriorityIRQ n p s).peek (0xE000E100 + 4 * (n / 4))) k
        = byteSlot (s.peek (0xE000E100 + 4 * (n / 4))) k := by
  have hm : n % 4 < 4 := Nat.mod_lt _ (by decide)
  constructor
  · apply Nat.eq_of_testBit_eq
    intro i
    rw [testBit_prioField]
    have hb := NVIC_SetPriorityIRQ_bit n h p s (0xE000E100 + 4 * (n / 4)) (8 * (n % 4) + 5 + i)
    unfold Regs.bit at hb
    rw [hb]
    by_cases hi : i < 3
    · have e1 : 8 * (n % 4) + 5 + i - (n % 4 * 8 + 5) = i := by omega
      have e2 : n % 4 * 8 + 5 ≤ 8 * (n % 4) + 5 + i := by omega
      have e3 : 8 * (n % 4) + 5 + i < 32 := by omega
      simp [hi, e1, e2, e3]
    · simp [hi, testBit_of_lt_eight p i hp (by omega)]
  · intro k hk hne
    apply Nat.eq_of_testBit_eq
    intro i
    rw [testBit_byteSlot, testBit_byteSlot]
    by_cases hi : i < 8
    · have hb := NVIC_SetPriorityIRQ_bit n h p s (0xE000E100 + 4 * (n / 4)) (8 * k + i)
      unfold Regs.bit at hb
      rw [hb]
      simp only [if_true, hi, decide_True, Bool.true_and]
      rcases Nat.lt_or_gt_of_ne hne with hlt | hgt
      · have e : ¬ (n % 4 * 8 + 5 ≤ 8 * k + i) := by omega
        simp [e]
      · have e1 : ¬ (8 * k + i - (n % 4 * 8 + 5) < 3) := by omega
        have e2 : p.testBit (8 * k + i - (n % 4 * 8 + 5)) = false :=
          testBit_of_lt_eight p _ hp (by omega)
        simp [e1, e2]
    · simp [hi]

/-- C2 at IRQ 6 (word 1, byte slot 2) with priority 5 on a bank of all-ones words. -/
theorem C2_priority_written_neighbours_kept_witness :
    6 ≤ 136 ∧ 5 < 8 ∧
    (prioField ((NVIC_SetPriorityIRQ 6 5 (Regs.const 0xFFFFFFFF)).peek
        (0xE000E100 + 4 * (6 / 4))) (6 % 4) = 5 ∧
     ∀ k, k < 4 → k ≠ 6 % 4 →
      byteSlot ((NVIC_SetPriorityIRQ 6 5 (Regs.const 0xFFFFFFFF)).peek
          (0xE000E100 + 4 * (6 / 4))) k
        = byteSlot ((Regs.const 0xFFFFFFFF).peek (0xE000E100 + 4 * (6 / 4))) k) :=
  ⟨by decide, by decide,
    C2_priority_written_neighbours_kept 6 (by decide) 5 (by decide) (Regs.const 0xFFFFFFFF)⟩

/-- C3 as stated fails: with IRQ 0 and priority 8 on a bank of zeros, bit 8 of the word at
`0xE000E100` (bit 0 of byte slot 1, outside bits [7:5] of byte slot 0) goes from 0 to 1. -/
theorem C3_counterexample :
    0 ≤ 136 ∧ ¬ (8 * (0 % 4) + 5 ≤ 8 ∧ 8 ≤ 8 * (0 % 4) + 7) ∧
    Regs.zero.bit 0xE000E100 8 = false ∧
    (NVIC_SetPriorityIRQ 0 8 Regs.zero).bit 0xE000E100 8 = true := by
  decide

/-- C3, amended: for every IRQ identifier `n` in 0..136, every priority value `p` and every
register state, `NVIC_SetPriorityIRQ n p` changes no word other than the one at
`0xE000E100 + 4 * (n div 4)` and in that word no bit below the field (below bit
`8 * (n mod 4) + 5`); each bit `j` above the field becomes the old bit OR-ed with bit
`j - (8 * (n mod 4) + 5)` of `p`.  Hence for `p` in 0..7 no bit outside the 3-bit field
changes, and for `p` below 256 the priority fields [7:5] of the other three byte slots are
preserved. -/
theorem C3_priority_frame (n : Nat) (h : n ≤ 136) (p : Nat) (s : Regs) :
    (∀ a, a ≠ 0xE000E100 + 4 * (n / 4) → (NVIC_SetPriorityIRQ n p s).peek a = s.peek a) ∧
    (∀ j, j < 8 * (n % 4) + 5 →
      (NVIC_SetPriorityIRQ n p s).bit (0xE000E100 + 4 * (n / 4)) j
        = s.bit (0xE000E100 + 4 * (n / 4)) j) ∧
    (∀ j, 8 * (n % 4) + 7 < j → j < 32 →
      (NVIC_SetPriorityIRQ n p s).bit (0xE000E100 + 4 * (n / 4)) j
        = (s.bit (0xE000E100 + 4 * (n / 4)) j || p.testBit (j - (8 * (n % 4) + 5)))) ∧
    (p < 8 → ∀ j, ¬ (8 * (n % 4) + 5 ≤ j ∧ j ≤ 8 * (n % 4) + 7) →
      (NVIC_SetPriorityIRQ n p s).bit (0xE000E100 + 4 * (n / 4)) j
        = s.bit (0xE000E100 + 4 * (n / 4)) j) ∧
    (p < 256 → ∀ k, k < 4 → k ≠ n % 4 →
      prioField ((NVIC_SetPriorityIRQ n p s).peek (0xE000E100 + 4 * (n / 4))) k
        = prioField (s.peek (0xE000E100 + 4 * (n / 4))) k) := by
  have hm : n % 4 < 4 := Nat.mod_lt _ (by decide)
  have e58 : n % 4 * 8 + 5 = 8 * (n % 4) + 5 := by omega
  refine ⟨?_, ?_, ?_, ?_, ?_⟩
  · intro a ha
    apply Regs.peek_eq_of_bit
    intro j
    rw [NVIC_SetPriorityIRQ_bit n h]
    simp only [ha, if_false]
  · intro j hj
    rw [NVIC_SetPriorityIRQ_bit n h, e58]
    have e : ¬ (8 * (n % 4) + 5 ≤ j) := by omega
    simp [e]
  · intro j hj hj32
    rw [NVIC_SetPriorityIRQ_bit n h, e58]
    have e1 : ¬ (j - (8 * (n % 4) + 5) < 3) := by omega
    have e2 : 8 * (n % 4) + 5 ≤ j := by omega
    simp [e1, e2, hj32]
  · intro hp j hj
    rw [NVIC_SetPriorityIRQ_bit n h, e58]
    by_cases hlo : 8 * (n % 4) + 5 ≤ j
    · have e1 : ¬ (j - (8 * (n % 4) + 5) < 3) := by omega
      have e2 : p.testBit (j - (8 * (n % 4) + 5)) = false :=
        testBit_of_lt_eight p _ hp (by omega)
      simp [e1, e2]
    · simp [hlo]
  · intro hp k hk hne
    apply Nat.eq_of_testBit_eq
    intro i
    rw [testBit_prioField, testBit_prioField]
    by_cases hi : i < 3
    · have hb := NVIC_SetPriorityIRQ_bit n h p s (0xE000E100 + 4 * (n / 4)) (8 * k + 5 + i)
      unfold Regs.bit at hb
      rw [hb, e58]
      simp only [if_true, hi, decide_True, Bool.true_and]
      rcases Nat.lt_or_gt_of_ne hne with hlt | hgt
      · have e : ¬ (8 * (n % 4) + 5 ≤ 8 * k + 5 + i) := by omega
        simp [e]
      · have e1 : ¬ (8 * k + 5 + i - (8 * (n % 4) + 5) < 3) := by omega
        have e2 : p.testBit (8 * k + 5 + i - (8 * (n % 4) + 5)) = false := by
          apply Nat.testBit_lt_two_pow
          calc p < 2 ^ 8 := hp
            _ ≤ 2 ^ (8 * k + 5 + i - (8 * (n % 4) + 5)) :=
                Nat.pow_le_pow_right (by decide) (by omega)
        simp [e1, e2]
    · simp [hi]

/-- C3 (amended) at IRQ 0 with priority 8 on a bank of zeros. -/
theorem C3_priority_frame_witness :
    0 ≤ 136 ∧
    ((∀ a, a ≠ 0xE000E100 + 4 * (0 / 4) →
        (NVIC_SetPriorityIRQ 0 8 Regs.zero).peek a = Regs.zero.peek a) ∧
    (∀ j, j < 8 * (0 % 4) + 5 →
      (NVIC_SetPriorityIRQ 0 8 Regs.zero).bit (0xE000E100 + 4 * (0 / 4)) j
        = Regs.zero.bit (0xE000E100 + 4 * (0 / 4)) j) ∧
    (∀ j, 8 * (0 % 4) + 7 < j → j < 32 →
      (NVIC_SetPriorityIRQ 0 8 Regs.zero).bit (0xE000E100 + 4 * (0 / 4)) j
        = (Regs.zero.bit (0xE000E100 + 4 * (0 / 4)) j
            || (8 : Nat).testBit (j - (8 * (0 % 4) + 5)))) ∧
    (8 < 8 → ∀ j, ¬ (8 * (0 % 4) + 5 ≤ j ∧ j ≤ 8 * (0 % 4) + 7) →
      (NVIC_SetPriorityIRQ 0 8 Regs.zero).bit (0xE000E100 + 4 * (0 / 4)) j
        = Regs.zero.bit (0xE000E100 + 4 * (0 / 4)) j) ∧
    (8 < 256 → ∀ k, k < 4 → k ≠ 0 % 4 →
      prioField ((NVIC_SetPriorityIRQ 0 8 Regs.zero).peek (0xE000E100 + 4 * (0 / 4))) k
        = prioField (Regs.zero.peek (0xE000E100 + 4 * (0 / 4))) k)) :=
  ⟨by decide, C3_priority_frame 0 (by decide) 8 Regs.zero⟩

/-- C4: identifiers out of range are no-ops.  For every `n > 136` and every priority,
`NVIC_EnableIRQ`, `NVIC_DisableIRQ` and `NVIC_SetPriorityIRQ` return the state they were
given: every register keeps its value and the access log gains no entry.  For every
exception identifier `e > 15` the same holds of `NVIC_SetPriorityException`. -/
theorem C4_out_of_range_noop (n e p : Nat) (hn : 136 < n) (he : 15 < e) (s : Regs) :
    NVIC_EnableIRQ n s = s ∧ NVIC_DisableIRQ n s = s ∧ NVIC_SetPriorityIRQ n p s = s ∧
    NVIC_SetPriorityException e p s = s := by
  have h1 : ¬ n ≤ 136 := by omega
  have h2 : ¬ e ≤ 15 := by omega
  simp only [NVIC_EnableIRQ, NVIC_DisableIRQ, NVIC_SetPriorityIRQ, NVIC_SetPriorityException,
    h1, h2, if_false, and_self]

/-- C4 at IRQ 137 and exception 16 with priority 3 on a bank of zeros. -/
theorem C4_out_of_range_noop_witness :
    136 < 137 ∧ 15 < 16 ∧
    (NVIC_EnableIRQ 137 Regs.zero = Regs.zero ∧ NVIC_DisableIRQ 137 Regs.zero = Regs.zero ∧
     NVIC_SetPriorityIRQ 137 3 Regs.zero = Regs.zero ∧
     NVIC_SetPriorityException 16 3 Regs.zero = Regs.zero) :=
  ⟨by decide, by decide, C4_out_of_range_noop 137 16 3 (by decide) (by decide) Regs.zero⟩

/-! ## NVIC: fault exceptions -/

/-- Every bit of every word after `NVIC_EnableException` with one of the three fault
identifiers. -/
theorem NVIC_EnableException_bit (T : Target) (e : Nat)
    (he : e = T.EXCEPTION_MEM_FAULT_TYPE ∨ e = T.EXCEPTION_BUS_FAULT_TYPE
      ∨ e = T.EXCEPTION_USAGE_FAULT_TYPE) (hr : e + 12 < 32) (s : Regs) (a j : Nat) :
    (NVIC_EnableException T e s).bit a j =
      if a = T.NVIC_SYSTEM_SYSHNDCTRL ∧ j = e + 12 then true else s.bit a j := by
  simp only [NVIC_EnableException, he, if_true, Regs.load, Regs.bit_store]
  by_cases ha : a = T.NVIC_SYSTEM_SYSHNDCTRL
  · subst ha
    simp only [if_true, true_and, Nat.testBit_or, testBit_shl32, testBit_one]
    by_cases hj : j = e + 12
    · subst hj; simp [hr]
    · by_cases hj32 : j < 32
      · have h2 : (decide (e + 12 ≤ j) && decide (j - (e + 12) = 0)) = false := by
          simp; omega
        simp only [hj, if_false, hj32, decide_True, Bool.true_and, h2, Bool.or_false]; rfl
      · simp only [hj, if_false, hj32, decide_False, Bool.false_and]
        exact (Regs.bit_high _ _ _ (by omega)).symm
  · simp only [ha, if_false, false_and]; rfl

/-- Every bit of every word after `NVIC_DisableException` with one of the three fault
identifiers. -/
theorem NVIC_DisableException_bit (T : Target) (e : Nat)
    (he : e = T.EXCEPTION_MEM_FAULT_TYPE ∨ e = T.EXCEPTION_BUS_FAULT_TYPE
      ∨ e = T.EXCEPTION_USAGE_FAULT_TYPE) (hr : e + 12 < 32) (s : Regs) (a j : Nat) :
    (NVIC_DisableException T e s).bit a j =
      if a = T.NVIC_SYSTEM_SYSHNDCTRL ∧ j = e + 12 then false else s.bit a j := by
  simp only [NVIC_DisableException, he, if_true, Regs.load, Regs.bit_store]
  by_cases ha : a = T.NVIC_SYSTEM_SYSHNDCTRL
  · subst ha
    simp only [if_true, true_and, Nat.testBit_and, testBit_not32, testBit_shl32, testBit_one]
    by_cases hj : j = e + 12
    · subst hj; simp [hr]
    · by_cases hj32 : j < 32
      · have h2 : (decide (e + 12 ≤ j) && decide (j - (e + 12) = 0)) = false := by
          simp; omega
        simp only [hj, if_false, hj32, decide_True, Bool.true_and, h2]
        simp; rfl
      · simp only [hj, if_false, hj32, decide_False, Bool.false_and]
        exact (Regs.bit_high _ _ _ (by omega)).symm
  · simp only [ha, if_false, false_and]; rfl

/-- C5: let the three fault identifiers and the address of the system-handler-control
register be any values `T`.  For an identifier `e` that is one of the three (and whose bit
`e + 12` lies in the 32-bit register, as it does for every exception identifier 0..15),
`NVIC_EnableException` sets and `NVIC_DisableException` clears bit `e + 12` of that
register, leaving every other bit of it and every other register as it was.  For any other
identifier both return the state they were given. -/
theorem C5_fault_exception_bit (T : Target) (s : Regs) :
    (∀ e, (e = T.EXCEPTION_MEM_FAULT_TYPE ∨ e = T.EXCEPTION_BUS_FAULT_TYPE
          ∨ e = T.EXCEPTION_USAGE_FAULT_TYPE) → e + 12 < 32 →
      (NVIC_EnableException T e s).bit T.NVIC_SYSTEM_SYSHNDCTRL (e + 12) = true ∧
      (NVIC_DisableException T e s).bit T.NVIC_SYSTEM_SYSHNDCTRL (e + 12) = false ∧
      (∀ j, j ≠ e + 12 →
        (NVIC_EnableException T e s).bit T.NVIC_SYSTEM_SYSHNDCTRL j
          = s.bit T.NVIC_SYSTEM_SYSHNDCTRL j ∧
        (NVIC_DisableException T e s).bit T.NVIC_SYSTEM_SYSHNDCTRL j
          = s.bit T.NVIC_SYSTEM_SYSHNDCTRL j) ∧
      (∀ a, a ≠ T.NVIC_SYSTEM_SYSHNDCTRL →
        (NVIC_EnableException T e s).peek a = s.peek a ∧
        (NVIC_DisableException T e s).peek a = s.peek a)) ∧
    (∀ e, ¬ (e = T.EXCEPTION_MEM_FAULT_TYPE ∨ e = T.EXCEPTION_BUS_FAULT_TYPE
          ∨ e = T.EXCEPTION_USAGE_FAULT_TYPE) →
      NVIC_EnableException T e s = s ∧ NVIC_DisableException T e s = s) := by
  constructor
  · intro e he hr
    refine ⟨?_, ?_, ?_, ?_⟩
    · rw [NVIC_EnableException_bit T e he hr]; simp
    · rw [NVIC_DisableException_bit T e he hr]; simp
    · intro j hj
      rw [NVIC_EnableException_bit T e he hr, NVIC_DisableException_bit T e he hr]
      simp [hj]
    · intro a ha
      constructor
      · apply Regs.peek_eq_of_bit
        intro j
        rw [NVIC_EnableException_bit T e he hr]
        simp [ha]
      · apply Regs.peek_eq_of_bit
        intro j
        rw [NVIC_DisableException_bit T e he hr]
        simp [ha]
  · intro e he
    simp only [NVIC_EnableException, NVIC_DisableException, he, if_false, and_self]

/-- C5 on the Cortex-M4 values: the bus fault (5) drives bit 17 of the word at
`0xE000ED24` of an all-ones bank, and the SysTick exception (15) is ignored. -/
theorem C5_fault_exception_bit_witness :
    ((NVIC_EnableException Target.tm4c123 5 (Regs.const 0xFFFFFFFF)).bit
        Target.tm4c123.NVIC_SYSTEM_SYSHNDCTRL (5 + 12) = true ∧
      (NVIC_DisableException Target.tm4c123 5 (Regs.const 0xFFFFFFFF)).bit
        Target.tm4c123.NVIC_SYSTEM_SYSHNDCTRL (5 + 12) = false ∧
      (∀ j, j ≠ 5 + 12 →
        (NVIC_EnableException Target.tm4c123 5 (Regs.const 0xFFFFFFFF)).bit
            Target.tm4c123.NVIC_SYSTEM_SYSHNDCTRL j
          = (Regs.const 0xFFFFFFFF).bit Target.tm4c123.NVIC_SYSTEM_SYSHNDCTRL j ∧
        (NVIC_DisableException Target.tm4c123 5 (Regs.const 0xFFFFFFFF)).bit
            Target.tm4c123.NVIC_SYSTEM_SYSHNDCTRL j
          = (Regs.const 0xFFFFFFFF).bit Target.tm4c123.NVIC_SYSTEM_SYSHNDCTRL j) ∧
      (∀ a, a ≠ Target.tm4c123.NVIC_SYSTEM_SYSHNDCTRL →
        (NVIC_EnableException Target.tm4c123 5 (Regs.const 0xFFFFFFFF)).peek a
          = (Regs.const 0xFFFFFFFF).peek a ∧
        (NVIC_DisableException Target.tm4c123 5 (Regs.const 0xFFFFFFFF)).peek a
          = (Regs.const 0xFFFFFFFF).peek a)) ∧
    (NVIC_EnableException Target.tm4c123 15 (Regs.const 0xFFFFFFFF) = Regs.const 0xFFFFFFFF ∧
      NVIC_DisableException Target.tm4c123 15 (Regs.const 0xFFFFFFFF)
        = Regs.const 0xFFFFFFFF) :=
  ⟨(C5_fault_exception_bit Target.tm4c123 (Regs.const 0xFFFFFFFF)).1 5 (by decide) (by decide),
   (C5_fault_exception_bit Target.tm4c123 (Regs.const 0xFFFFFFFF)).2 15 (by decide)⟩

/-! ## SysTick -/

/-- The count flag of a value read from the control register: its bit 16. -/
theorem countFlag_clear_iff (x : Nat) : x &&& shl32 1 16 = 0 ↔ x.testBit 16 = false := by
  have e : shl32 1 16 = 2 ^ 16 := by decide
  rw [e]
  constructor
  · intro h
    have h16 : (x &&& 2 ^ 16).testBit 16 = (0 : Nat).testBit 16 := by rw [h]
    rw [Nat.testBit_and, Nat.testBit_two_pow, Nat.zero_testBit] at h16
    simpa using h16
  · intro h
    apply Nat.eq_of_testBit_eq
    intro i
    rw [Nat.testBit_and, Nat.testBit_two_pow, Nat.zero_testBit]
    by_cases hi : 16 = i
    · subst hi; simp [h]
    · simp [hi]

/-- What a finished polling loop says of the reads: it ended at a read with the flag set,
and every earlier read had it clear. -/
theorem SysTick_poll_some (hw : Nat → Nat) (fuel i k : Nat)
    (h : SysTick_poll hw fuel i = some k) :
    i ≤ k ∧ (hw k % 2 ^ 32).testBit 16 = true ∧
      ∀ j, i ≤ j → j < k → (hw j % 2 ^ 32).testBit 16 = false := by
  induction fuel generalizing i with
  | zero => simp [SysTick_poll] at h
  | succ f ih =>
    unfold SysTick_poll at h
    by_cases hc : (hw i % 2 ^ 32) &&& shl32 1 16 = 0
    · rw [if_pos hc] at h
      obtain ⟨h1, h2, h3⟩ := ih (i + 1) h
      refine ⟨by omega, h2, ?_⟩
      intro j hij hjk
      by_cases hji : j = i
      · subst hji; exact (countFlag_clear_iff _).mp hc
      · exact h3 j (by omega) hjk
    · rw [if_neg hc] at h
      have hk : i = k := by simpa using h
      subst hk
      refine ⟨le_refl _, ?_, ?_⟩
      · have := mt (countFlag_clear_iff (hw i % 2 ^ 32)).mpr hc
        simpa using this
      · intro j h1 h2; omega

/-- The polling loop ends at the first read with the flag set, given fuel for it. -/
theorem SysTick_poll_complete (hw : Nat → Nat) (fuel i k : Nat) (hik : i ≤ k)
    (hfuel : k - i < fuel) (hk : (hw k % 2 ^ 32).testBit 16 = true)
    (hbefore : ∀ j, i ≤ j → j < k → (hw j % 2 ^ 32).testBit 16 = false) :
    SysTick_poll hw fuel i = some k := by
  induction fuel generalizing i with
  | zero => omega
  | succ f ih =>
    unfold SysTick_poll
    by_cases hi : i = k
    · subst hi
      have hc : ¬ ((hw i % 2 ^ 32) &&& shl32 1 16 = 0) := by
        intro hc
        rw [(countFlag_clear_iff _).mp hc] at hk
        exact Bool.noConfusion hk
      rw [if_neg hc]
    · have hc : (hw i % 2 ^ 32) &&& shl32 1 16 = 0 :=
        (countFlag_clear_iff _).mpr (hbefore i (le_refl _) (by omega))
      rw [if_pos hc]
      exact ih (i + 1) (by omega) (by omega) (fun j h1 h2 => hbefore j (by omega) h2)

theorem SysTick_Stop_enable_clear (s : SysTick) :
    (SysTick_Stop s).SYSTICK_CTRL_REG.testBit 0 = false := by
  show ((s.readCtrl &&& not32 0x01) % 2 ^ 32).testBit 0 = false
  rw [Nat.testBit_mod_two_pow, Nat.testBit_and, testBit_not32]
  simp

theorem SysTick_Handler_times_trace (fn : Nat) (hfn : fn ≠ NULL_PTR) (n : Nat) (s : SysTick)
    (hs : s.g_callBackPtr = fn) :
    (SysTick_Handler_times n s).trace = s.trace ++ List.replicate n (Event.call fn) ∧
    (SysTick_Handler_times n s).g_callBackPtr = fn := by
  induction n generalizing s with
  | zero => simp [SysTick_Handler_times, hs]
  | succ m ih =>
    have hstep : SysTick_Handler s = { s with trace := s.trace ++ [Event.call fn] } := by
      simp [SysTick_Handler, hs, hfn]
    have := ih (SysTick_Handler s) (by rw [hstep]; exact hs)
    simp only [SysTick_Handler_times]
    rw [this.1, this.2, hstep]
    simp [List.replicate_succ]

theorem SysTick_SetCallBack_foldl_trace (fs : List Nat) (s : SysTick) :
    (fs.foldl (fun st f => SysTick_SetCallBack f st) s).trace = s.trace := by
  induction fs generalizing s with
  | nil => rfl
  | cons f fs ih => simp only [List.foldl_cons]; rw [ih]; rfl

/-- C6: for every duration `d` (every 16-bit value in particular) and every prior state,
`SysTick_Init d` leaves in the reload register the value of `d * (16000000 / 1000) - 1` in
unsigned 32-bit arithmetic, that is the integer `d * 16000 - 1` reduced modulo `2 ^ 32`;
`SysTick_Init 50` leaves 799999 and `SysTick_Init 1` leaves 15999. -/
theorem C6_init_reload (d : Nat) (s : SysTick) :
    ((SysTick_Init d s).SYSTICK_RELOAD_REG : Int)
        = ((d : Int) * (16000000 / 1000) - 1) % 2 ^ 32 ∧
    (SysTick_Init 50 s).SYSTICK_RELOAD_REG = 799999 ∧
    (SysTick_Init 1 s).SYSTICK_RELOAD_REG = 15999 := by
  refine ⟨?_, rfl, rfl⟩
  show (((dec32 ((d * (F_CPU / 1000)) % 2 ^ 32)) % 2 ^ 32 : Nat) : Int) = _
  have hF : F_CPU / 1000 = 16000 := by decide
  rw [hF]
  unfold dec32
  norm_num
  omega

/-- C7: for every duration and every prior state of the three SysTick registers, after
`SysTick_Init` the control register is `0x07` (bits 0, 1 and 2 set, enable,
interrupt-enable and clock-source, and no other bit) and the current-value register is 0. -/
theorem C7_init_control (d : Nat) (s : SysTick) :
    (SysTick_Init d s).SYSTICK_CTRL_REG = 0x07 ∧
    (∀ j, (SysTick_Init d s).SYSTICK_CTRL_REG.testBit j = decide (j ≤ 2)) ∧
    (SysTick_Init d s).SYSTICK_CURRENT_REG = 0 := by
  have h7 : (SysTick_Init d s).SYSTICK_CTRL_REG = 0x07 := by
    show ((((0 % 2 ^ 32) % 2 ^ 32 ||| 0x06) % 2 ^ 32) % 2 ^ 32 ||| 0x01) % 2 ^ 32 = 0x07
    decide
  refine ⟨h7, ?_, rfl⟩
  intro j
  rw [h7]
  have := Nat.testBit_two_pow_sub_one 3 j
  simpa [Nat.lt_succ_iff] using this

/-- C8: let `hw n` be the value the `n`-th polling read of the control register returns.
For every duration, every such sequence and every prior state:
whenever `SysTick_StartBusyWait` returns, the read that ended the loop had the count flag
(bit 16) set, every earlier read had it clear, and bit 0 of the control register is clear
in the returned state; if read number `k` is the first with the flag set, the call does
return, at read `k`, as soon as the loop is given more than `k` reads; and if no read ever
has the flag set the call never returns. -/
theorem C8_busy_wait_returns_at_first_flag (d : Nat) (hw : Nat → Nat) (s : SysTick) :
    (∀ fuel s1 k, SysTick_StartBusyWait d hw fuel s = some (s1, k) →
      (hw k % 2 ^ 32).testBit 16 = true ∧
      (∀ j, j < k → (hw j % 2 ^ 32).testBit 16 = false) ∧
      s1.SYSTICK_CTRL_REG.testBit 0 = false) ∧
    (∀ k, (hw k % 2 ^ 32).testBit 16 = true →
      (∀ j, j < k → (hw j % 2 ^ 32).testBit 16 = false) →
      ∀ fuel, k < fuel →
        ∃ s1, SysTick_StartBusyWait d hw fuel s = some (s1, k)
          ∧ s1.SYSTICK_CTRL_REG.testBit 0 = false) ∧
    ((∀ j, (hw j % 2 ^ 32).testBit 16 = false) →
      ∀ fuel, SysTick_StartBusyWait d hw fuel s = none) := by
  have hret : ∀ fuel s1 k, SysTick_StartBusyWait d hw fuel s = some (s1, k) →
      (hw k % 2 ^ 32).testBit 16 = true ∧
      (∀ j, j < k → (hw j % 2 ^ 32).testBit 16 = false) ∧
      s1.SYSTICK_CTRL_REG.testBit 0 = false := by
    intro fuel s1 k h
    unfold SysTick_StartBusyWait at h
    cases hp : SysTick_poll hw fuel 0 with
    | none => rw [hp] at h; exact Option.noConfusion h
    | some n =>
      rw [hp] at h
      have hh := Option.some.inj h
      have hs1 : SysTick_Stop (SysTick_StartBusyWait_setup d s) = s1 := congrArg Prod.fst hh
      have hn : n = k := congrArg Prod.snd hh
      subst hn
      obtain ⟨_, h2, h3⟩ := SysTick_poll_some hw fuel 0 n hp
      refine ⟨h2, fun j hj => h3 j (Nat.zero_le _) hj, ?_⟩
      rw [← hs1]
      exact SysTick_Stop_enable_clear _
  refine ⟨hret, ?_, ?_⟩
  · intro k hk hbefore fuel hfuel
    have hp := SysTick_poll_complete hw fuel 0 k (Nat.zero_le _) (by omega) hk
      (fun j _ h2 => hbefore j h2)
    refine ⟨SysTick_Stop (SysTick_StartBusyWait_setup d s), ?_, SysTick_Stop_enable_clear _⟩
    unfold SysTick_StartBusyWait
    rw [hp]
  · intro hnever fuel
    cases hr : SysTick_StartBusyWait d hw fuel s with
    | none => rfl
    | some r =>
      obtain ⟨s1, k⟩ := r
      have := (hret fuel s1 k hr).1
      rw [hnever k] at this
      exact Bool.noConfusion this

/-- C8 with a 50 ms wait whose flag first shows at read 3 (reads 0..2 return `0x05`, read 3
returns `0x10005`), and with hardware that never raises the flag. -/
theorem C8_busy_wait_returns_at_first_flag_witness :
    (∃ s1, SysTick_StartBusyWait 50 (fun n => if n < 3 then 0x05 else 0x10005) 4
        (SysTick.boot 7 5 3) = some (s1, 3) ∧ s1.SYSTICK_CTRL_REG.testBit 0 = false) ∧
    (∀ fuel, SysTick_StartBusyWait 50 (fun _ => 0x05) fuel (SysTick.boot 7 5 3) = none) :=
  ⟨(C8_busy_wait_returns_at_first_flag 50 (fun n => if n < 3 then 0x05 else 0x10005)
      (SysTick.boot 7 5 3)).2.1 3 (by decide)
      (fun j hj => by
        have h3 : j < 3 := hj
        simp only [h3, if_true]
        decide) 4 (by decide),
   (C8_busy_wait_returns_at_first_flag 50 (fun _ => 0x05) (SysTick.boot 7 5 3)).2.2
      (fun _ => by decide)⟩

/-- C9: for every non-null callback `fn` and every timer state, after
`SysTick_SetCallBack fn` each run of `SysTick_Handler` adds exactly one event, a call of
`fn` (so `n` runs make `n` calls of `fn` and nothing else), also when other callbacks had
been stored before `fn`.  After `SysTick_SetCallBack NULL_PTR`, and in the state at program
start, `SysTick_Handler` returns the state unchanged: no call is made. -/
theorem C9_handler_calls_stored_callback (fn : Nat) (hfn : fn ≠ NULL_PTR) (s : SysTick) :
    (∀ n, (SysTick_Handler_times n (SysTick_SetCallBack fn s)).trace
        = s.trace ++ List.replicate n (Event.call fn)) ∧
    (∀ n, (SysTick_Handler_times n (SysTick_SetCallBack fn s)).calls
        = s.calls ++ List.replicate n fn) ∧
    (∀ (earlier : List Nat) n,
      (SysTick_Handler_times n (SysTick_SetCallBack fn
          (earlier.foldl (fun st f => SysTick_SetCallBack f st) s))).trace
        = s.trace ++ List.replicate n (Event.call fn)) ∧
    SysTick_Handler (SysTick_SetCallBack NULL_PTR s) = SysTick_SetCallBack NULL_PTR s ∧
    SysTick_Handler (SysTick_SetCallBack NULL_PTR (SysTick_SetCallBack fn s))
      = SysTick_SetCallBack NULL_PTR (SysTick_SetCallBack fn s) ∧
    (∀ ctrl reload current,
      SysTick_Handler (SysTick.boot ctrl reload current)
        = SysTick.boot ctrl reload current) := by
  have ht : ∀ (t : SysTick) n, (SysTick_Handler_times n (SysTick_SetCallBack fn t)).trace
      = t.trace ++ List.replicate n (Event.call fn) := fun t n =>
    (SysTick_Handler_times_trace fn hfn n (SysTick_SetCallBack fn t) rfl).1
  refine ⟨ht s, ?_, ?_, ?_, ?_, ?_⟩
  · intro n
    unfold SysTick.calls
    rw [ht s n, List.filterMap_append]
    congr 1
    induction n with
    | zero => rfl
    | succ m ih => simp [List.replicate_succ, ih]
  · intro earlier n
    rw [ht, SysTick_SetCallBack_foldl_trace]
  · simp [SysTick_Handler, SysTick_SetCallBack]
  · simp [SysTick_Handler, SysTick_SetCallBack]
  · intro c r v
    simp [SysTick_Handler, SysTick.boot]

/-- C9 with the callback at address `0x2000` stored in the state at program start. -/
theorem C9_handler_calls_stored_callback_witness :
    0x2000 ≠ NULL_PTR ∧
    (SysTick_Handler_times 3 (SysTick_SetCallBack 0x2000 (SysTick.boot 7 5 3))).calls
      = (SysTick.boot 7 5 3).calls ++ List.replicate 3 0x2000 :=
  ⟨by decide,
    (C9_handler_calls_stored_callback 0x2000 (by decide) (SysTick.boot 7 5 3)).2.1 3⟩

/-- C10: for every prior state of the timer, after `SysTick_DeInit` the control, reload and
current-value registers are all 0 and `g_callBackPtr` holds what it held before. -/
theorem C10_deinit_zeroes_registers (s : SysTick) :
    (SysTick_DeInit s).SYSTICK_CTRL_REG = 0 ∧
    (SysTick_DeInit s).SYSTICK_RELOAD_REG = 0 ∧
    (SysTick_DeInit s).SYSTICK_CURRENT_REG = 0 ∧
    (SysTick_DeInit s).g_callBackPtr = s.g_callBackPtr :=
  ⟨rfl, rfl, rfl, rfl⟩

/-! ## SysTick: start and stop -/

/-- Every bit the control register reads after `SysTick_Start`. -/
theorem SysTick_Start_bit (s : SysTick) (j : Nat) :
    (SysTick_Start s).readCtrl.testBit j = (decide (j = 0) || s.readCtrl.testBit j) := by
  show (((s.readCtrl ||| 0x01) % 2 ^ 32) % 2 ^ 32).testBit j = _
  rw [Nat.testBit_mod_two_pow, Nat.testBit_mod_two_pow, Nat.testBit_or, testBit_one]
  unfold SysTick.readCtrl
  rw [Nat.testBit_mod_two_pow]
  by_cases hj : j < 32
  · simp [hj, Bool.or_comm]
  · have : j ≠ 0 := by omega
    simp [hj, this]

/-- Every bit the control register reads after `SysTick_Stop`. -/
theorem SysTick_Stop_bit (s : SysTick) (j : Nat) :
    (SysTick_Stop s).readCtrl.testBit j = (!decide (j = 0) && s.readCtrl.testBit j) := by
  show (((s.readCtrl &&& not32 0x01) % 2 ^ 32) % 2 ^ 32).testBit j = _
  rw [Nat.testBit_mod_two_pow, Nat.testBit_mod_two_pow, Nat.testBit_and, testBit_not32,
    testBit_one]
  unfold SysTick.readCtrl
  rw [Nat.testBit_mod_two_pow]
  by_cases hj : j < 32
  · simp [hj, Bool.and_comm]
  · simp [hj]

/-- C11: for every timer state, `SysTick_Start` sets and `SysTick_Stop` clears bit 0 of the
control register, and each leaves every other bit of the control register, the reload
register, the current-value register and `g_callBackPtr` as they were. -/
theorem C11_start_stop_enable_bit (s : SysTick) :
    ((SysTick_Start s).readCtrl.testBit 0 = true ∧
      (∀ j, j ≠ 0 → (SysTick_Start s).readCtrl.testBit j = s.readCtrl.testBit j) ∧
      (SysTick_Start s).SYSTICK_RELOAD_REG = s.SYSTICK_RELOAD_REG ∧
      (SysTick_Start s).SYSTICK_CURRENT_REG = s.SYSTICK_CURRENT_REG ∧
      (SysTick_Start s).g_callBackPtr = s.g_callBackPtr) ∧
    ((SysTick_Stop s).readCtrl.testBit 0 = false ∧
      (∀ j, j ≠ 0 → (SysTick_Stop s).readCtrl.testBit j = s.readCtrl.testBit j) ∧
      (SysTick_Stop s).SYSTICK_RELOAD_REG = s.SYSTICK_RELOAD_REG ∧
      (SysTick_Stop s).SYSTICK_CURRENT_REG = s.SYSTICK_CURRENT_REG ∧
      (SysTick_Stop s).g_callBackPtr = s.g_callBackPtr) := by
  refine ⟨⟨?_, ?_, rfl, rfl, rfl⟩, ⟨?_, ?_, rfl, rfl, rfl⟩⟩
  · rw [SysTick_Start_bit]; simp
  · intro j hj; rw [SysTick_Start_bit]; simp [hj]
  · rw [SysTick_Stop_bit]; simp
  · intro j hj; rw [SysTick_Stop_bit]; simp [hj]

/-- C11 on a timer whose control register holds `0x10006` and on one holding `0x07`. -/
theorem C11_start_stop_enable_bit_witness :
    (∀ j, j ≠ 0 → (SysTick_Start (SysTick.boot 0x10006 5 3)).readCtrl.testBit j
        = (SysTick.boot 0x10006 5 3).readCtrl.testBit j) ∧
    (∀ j, j ≠ 0 → (SysTick_Stop (SysTick.boot 0x07 5 3)).readCtrl.testBit j
        = (SysTick.boot 0x07 5 3).readCtrl.testBit j) :=
  ⟨(C11_start_stop_enable_bit (SysTick.boot 0x10006 5 3)).1.2.1,
   (C11_start_stop_enable_bit (SysTick.boot 0x07 5 3)).2.2.1⟩

/-! ## NVIC: priority of system exceptions -/

/-- C12: for every exception identifier `n` in 0..15, every priority `p` in 0..7 and every
register state, after `NVIC_SetPriorityException n p` bits [7:5] of byte slot `n mod 4` of
the word at `0xE000ED14 + 4 * (n div 4)` equal `p`, every other bit of that word is
unchanged, and no other register is changed. -/
theorem C12_exception_priority (n : Nat) (h : n ≤ 15) (p : Nat) (hp : p < 8) (s : Regs) :
    prioField ((NVIC_SetPriorityException n p s).peek (0xE000ED14 + 4 * (n / 4))) (n % 4) = p ∧
    (∀ j, ¬ (8 * (n % 4) + 5 ≤ j ∧ j ≤ 8 * (n % 4) + 7) →
      (NVIC_SetPriorityException n p s).bit (0xE000ED14 + 4 * (n / 4)) j
        = s.bit (0xE000ED14 + 4 * (n / 4)) j) ∧
    (∀ a, a ≠ 0xE000ED14 + 4 * (n / 4) →
      (NVIC_SetPriorityException n p s).peek a = s.peek a) := by
  have hm : n % 4 < 4 := Nat.mod_lt _ (by decide)
  have e58 : n % 4 * 8 + 5 = 8 * (n % 4) + 5 := by omega
  refine ⟨?_, ?_, ?_⟩
  · apply Nat.eq_of_testBit_eq
    intro i
    rw [testBit_prioField]
    have hb := NVIC_SetPriorityException_bit n h p s (0xE000ED14 + 4 * (n / 4))
      (8 * (n % 4) + 5 + i)
    unfold Regs.bit at hb
    rw [hb]
    by_cases hi : i < 3
    · have e1 : 8 * (n % 4) + 5 + i - (n % 4 * 8 + 5) = i := by omega
      have e2 : n % 4 * 8 + 5 ≤ 8 * (n % 4) + 5 + i := by omega
      have e3 : 8 * (n % 4) + 5 + i < 32 := by omega
      simp [hi, e1, e2, e3]
    · simp [hi, testBit_of_lt_eight p i hp (by omega)]
  · intro j hj
    rw [NVIC_SetPriorityException_bit n h, e58]
    by_cases hlo : 8 * (n % 4) + 5 ≤ j
    · have e1 : ¬ (j - (8 * (n % 4) + 5) < 3) := by omega
      have e2 : p.testBit (j - (8 * (n % 4) + 5)) = false :=
        testBit_of_lt_eight p _ hp (by omega)
      simp [e1, e2]
    · simp [hlo]
  · intro a ha
    apply Regs.peek_eq_of_bit
    intro j
    rw [NVIC_SetPriorityException_bit n h]
    simp only [ha, if_false]

/-- C12 at the SysTick exception (15: word 3, byte slot 3) with priority 2 on a bank of
all-ones words. -/
theorem C12_exception_priority_witness :
    15 ≤ 15 ∧ 2 < 8 ∧
    (prioField ((NVIC_SetPriorityException 15 2 (Regs.const 0xFFFFFFFF)).peek
        (0xE000ED14 + 4 * (15 / 4))) (15 % 4) = 2 ∧
    (∀ j, ¬ (8 * (15 % 4) + 5 ≤ j ∧ j ≤ 8 * (15 % 4) + 7) →
      (NVIC_SetPriorityException 15 2 (Regs.const 0xFFFFFFFF)).bit
          (0xE000ED14 + 4 * (15 / 4)) j
        = (Regs.const 0xFFFFFFFF).bit (0xE000ED14 + 4 * (15 / 4)) j) ∧
    (∀ a, a ≠ 0xE000ED14 + 4 * (15 / 4) →
      (NVIC_SetPriorityException 15 2 (Regs.const 0xFFFFFFFF)).peek a
        = (Regs.const 0xFFFFFFFF).peek a)) :=
  ⟨by decide, by decide,
    C12_exception_priority 15 (by decide) 2 (by decide) (Regs.const 0xFFFFFFFF)⟩

/-! ## SysTick: the callback slot -/

theorem SysTick_StartBusyWait_callback (d : Nat) (hw : Nat → Nat) (fuel : Nat)
    (s s1 : SysTick) (k : Nat) (h : SysTick_StartBusyWait d hw fuel s = some (s1, k)) :
    s1.g_callBackPtr = s.g_callBackPtr := by
  unfold SysTick_StartBusyWait at h
  cases hp : SysTick_poll hw fuel 0 with
  | none => rw [hp] at h; exact Option.noConfusion h
  | some n =>
    rw [hp] at h
    have hs1 : SysTick_Stop (SysTick_StartBusyWait_setup d s) = s1 :=
      congrArg Prod.fst (Option.some.inj h)
    rw [← hs1]
    rfl

theorem SysTick_Handler_callback (s : SysTick) :
    (SysTick_Handler s).g_callBackPtr = s.g_callBackPtr := by
  unfold SysTick_Handler
  by_cases h : s.g_callBackPtr ≠ NULL_PTR
  · rw [if_pos h]
  · rw [if_neg h]

theorem SysTickOp.apply_callback (op : SysTickOp) (s s1 : SysTick)
    (h : op.apply s = some s1) : s1.g_callBackPtr = s.g_callBackPtr := by
  cases op with
  | init d => rw [← Option.some.inj h]; rfl
  | busyWait d hw fuel =>
    simp only [SysTickOp.apply] at h
    cases hr : SysTick_StartBusyWait d hw fuel s with
    | none => rw [hr] at h; exact Option.noConfusion h
    | some r =>
      obtain ⟨s2, k⟩ := r
      rw [hr] at h
      have : s2 = s1 := Option.some.inj h
      rw [← this]
      exact SysTick_StartBusyWait_callback d hw fuel s s2 k hr
  | start => rw [← Option.some.inj h]; rfl
  | stop => rw [← Option.some.inj h]; rfl
  | deInit => rw [← Option.some.inj h]; rfl
  | handler => rw [← Option.some.inj h]; exact SysTick_Handler_callback s

theorem SysTick_run_callback (ops : List SysTickOp) (s s1 : SysTick)
    (h : SysTick_run ops s = some s1) : s1.g_callBackPtr = s.g_callBackPtr := by
  induction ops generalizing s with
  | nil => rw [← Option.some.inj h]
  | cons op ops ih =>
    unfold SysTick_run at h
    cases ha : op.apply s with
    | none => rw [ha] at h; exact Option.noConfusion h
    | some s2 =>
      rw [ha] at h
      rw [ih s2 h]
      exact SysTickOp.apply_callback op s s2 ha

/-- C13: `g_callBackPtr` is null at program start and only `SysTick_SetCallBack` writes it.
For every timer state, `SysTick_Init`, `SysTick_StartBusyWait` (when it returns),
`SysTick_Start`, `SysTick_Stop`, `SysTick_DeInit` and `SysTick_Handler` leave
`g_callBackPtr` holding what it held before; hence after `SysTick_SetCallBack fn` any
sequence of those operations that runs to its end still finds `fn` in the slot. -/
theorem C13_callback_slot_written_by_setter_only (s : SysTick) :
    (∀ ctrl reload current, (SysTick.boot ctrl reload current).g_callBackPtr = NULL_PTR) ∧
    (∀ fn, (SysTick_SetCallBack fn s).g_callBackPtr = fn) ∧
    (∀ d, (SysTick_Init d s).g_callBackPtr = s.g_callBackPtr) ∧
    (∀ d hw fuel s1 k, SysTick_StartBusyWait d hw fuel s = some (s1, k) →
      s1.g_callBackPtr = s.g_callBackPtr) ∧
    (SysTick_Start s).g_callBackPtr = s.g_callBackPtr ∧
    (SysTick_Stop s).g_callBackPtr = s.g_callBackPtr ∧
    (SysTick_DeInit s).g_callBackPtr = s.g_callBackPtr ∧
    (SysTick_Handler s).g_callBackPtr = s.g_callBackPtr ∧
    (∀ fn ops s1, SysTick_run ops (SysTick_SetCallBack fn s) = some s1 →
      s1.g_callBackPtr = fn) :=
  ⟨fun _ _ _ => rfl, fun _ => rfl, fun _ => rfl,
    fun d hw fuel s1 k h => SysTick_StartBusyWait_callback d hw fuel s s1 k h,
    rfl, rfl, rfl, SysTick_Handler_callback s,
    fun fn ops s1 h => SysTick_run_callback ops (SysTick_SetCallBack fn s) s1 h⟩

/-- C13 with the callback at `0x2000` stored at program start, followed by an init, a tick,
a busy wait whose flag shows at the second read, a start, a stop and a de-init. -/
theorem C13_callback_slot_written_by_setter_only_witness :
    ∃ s1, SysTick_run
        [SysTickOp.init 50, SysTickOp.handler,
         SysTickOp.busyWait 1 (fun n => if n = 0 then 0x05 else 0x10005) 2,
         SysTickOp.start, SysTickOp.stop, SysTickOp.deInit]
        (SysTick_SetCallBack 0x2000 (SysTick.boot 7 5 3)) = some s1
      ∧ s1.g_callBackPtr = 0x2000 :=
  ⟨SysTick_DeInit (SysTick_Stop (SysTick_Start (SysTick_Stop (SysTick_StartBusyWait_setup 1
      (SysTick_Handler (SysTick_Init 50 (SysTick_SetCallBack 0x2000 (SysTick.boot 7 5 3)))))))),
    rfl,
    (C13_callback_slot_written_by_setter_only (SysTick.boot 7 5 3)).2.2.2.2.2.2.2.2 0x2000
      [SysTickOp.init 50, SysTickOp.handler,
       SysTickOp.busyWait 1 (fun n => if n = 0 then 0x05 else 0x10005) 2,
       SysTickOp.start, SysTickOp.stop, SysTickOp.deInit] _ rfl⟩

/-! ## NVIC: the frame of enable and disable -/

/-- C14: for every IRQ identifier `n` in 0..136 and every register state, `NVIC_EnableIRQ n`
and `NVIC_DisableIRQ n` change at most bit `n mod 32` of the word at
`0xE000E100 + 4 * (n div 32)`: every other bit of that word and every other register keep
their values, so the enable bit of any other IRQ `m` in 0..136 is not altered. -/
theorem C14_enable_disable_frame (n : Nat) (h : n ≤ 136) (s : Regs) :
    (∀ j, j ≠ n % 32 →
      (NVIC_EnableIRQ n s).bit (0xE000E100 + 4 * (n / 32)) j
        = s.bit (0xE000E100 + 4 * (n / 32)) j ∧
      (NVIC_DisableIRQ n s).bit (0xE000E100 + 4 * (n / 32)) j
        = s.bit (0xE000E100 + 4 * (n / 32)) j) ∧
    (∀ a, a ≠ 0xE000E100 + 4 * (n / 32) →
      (NVIC_EnableIRQ n s).peek a = s.peek a ∧ (NVIC_DisableIRQ n s).peek a = s.peek a) ∧
    (∀ m, m ≤ 136 → m ≠ n →
      (NVIC_EnableIRQ n s).bit (0xE000E100 + 4 * (m / 32)) (m % 32)
        = s.bit (0xE000E100 + 4 * (m / 32)) (m % 32) ∧
      (NVIC_DisableIRQ n s).bit (0xE000E100 + 4 * (m / 32)) (m % 32)
        = s.bit (0xE000E100 + 4 * (m / 32)) (m % 32)) := by
  refine ⟨?_, ?_, ?_⟩
  · intro j hj
    rw [NVIC_EnableIRQ_bit n h, NVIC_DisableIRQ_bit n h]
    simp [hj]
  · intro a ha
    constructor
    · apply Regs.peek_eq_of_bit
      intro j
      rw [NVIC_EnableIRQ_bit n h]
      simp [ha]
    · apply Regs.peek_eq_of_bit
      intro j
      rw [NVIC_DisableIRQ_bit n h]
      simp [ha]
  · intro m _ hmn
    have hne : ¬ (0xE000E100 + 4 * (m / 32) = 0xE000E100 + 4 * (n / 32)
        ∧ m % 32 = n % 32) := by omega
    rw [NVIC_EnableIRQ_bit n h, NVIC_DisableIRQ_bit n h]
    simp only [hne, if_false, and_self]

/-- C14 at IRQ 37 on a bank of all-ones words: IRQ 36, in the same word, keeps its bit. -/
theorem C14_enable_disable_frame_witness :
    37 ≤ 136 ∧
    ((NVIC_EnableIRQ 37 (Regs.const 0xFFFFFFFF)).bit (0xE000E100 + 4 * (36 / 32)) (36 % 32)
        = (Regs.const 0xFFFFFFFF).bit (0xE000E100 + 4 * (36 / 32)) (36 % 32) ∧
      (NVIC_DisableIRQ 37 (Regs.const 0xFFFFFFFF)).bit (0xE000E100 + 4 * (36 / 32)) (36 % 32)
        = (Regs.const 0xFFFFFFFF).bit (0xE000E100 + 4 * (36 / 32)) (36 % 32)) :=
  ⟨by decide,
    (C14_enable_disable_frame 37 (by decide) (Regs.const 0xFFFFFFFF)).2.2 36 (by decide)
      (by decide)⟩

/-! ## SysTick: the busy wait and the reload value -/

/-- The reload value both `SysTick_Init` and `SysTick_StartBusyWait` store. -/
theorem SysTick_reload_eq (d : Nat) (s : SysTick) :
    (SysTick_Init d s).SYSTICK_RELOAD_REG = (d * 16000 % 2 ^ 32 + (2 ^ 32 - 1)) % 2 ^ 32 ∧
    (SysTick_StartBusyWait_setup d s).SYSTICK_RELOAD_REG
      = (d * 16000 % 2 ^ 32 + (2 ^ 32 - 1)) % 2 ^ 32 := by
  have hF : F_CPU / 1000 = 16000 := by decide
  constructor
  · show (dec32 ((d * (F_CPU / 1000)) % 2 ^ 32)) % 2 ^ 32 = _
    rw [hF]; unfold dec32; omega
  · show (dec32 ((d * (F_CPU / 1000)) % 2 ^ 32)) % 2 ^ 32 = _
    rw [hF]; unfold dec32; omega

/-- The events `SysTick_StartBusyWait` adds before it starts polling. -/
theorem SysTick_StartBusyWait_setup_trace (d : Nat) (s : SysTick) :
    (SysTick_StartBusyWait_setup d s).trace = s.trace ++
      [Event.write SysTickReg.CTRL 0,
       Event.write SysTickReg.RELOAD (SysTick_Init d s).SYSTICK_RELOAD_REG,
       Event.write SysTickReg.CURRENT 0,
       Event.write SysTickReg.CTRL 0x04,
       Event.write SysTickReg.CTRL 0x05] := by
  simp [SysTick_StartBusyWait_setup, SysTick_Init, SysTick_Start, SysTick.writeCtrl,
    SysTick.writeReload, SysTick.writeCurrent, SysTick.readCtrl]

/-- The events `SysTick_Init` adds. -/
theorem SysTick_Init_trace (d : Nat) (s : SysTick) :
    (SysTick_Init d s).trace = s.trace ++
      [Event.write SysTickReg.CTRL 0,
       Event.write SysTickReg.RELOAD (SysTick_Init d s).SYSTICK_RELOAD_REG,
       Event.write SysTickReg.CURRENT 0,
       Event.write SysTickReg.CTRL 0x06,
       Event.write SysTickReg.CTRL 0x07] := by
  simp [SysTick_Init, SysTick_Start, SysTick.writeCtrl,
    SysTick.writeReload, SysTick.writeCurrent, SysTick.readCtrl]

/-- C15: for every duration `d` and every prior state, `SysTick_StartBusyWait d` writes to
the reload and current-value registers what `SysTick_Init d` writes (the 32-bit value of
`d * 16000 - 1`, and 0); when polling begins the control register is `0x05` (bits 0 and 2
set, bit 1 clear); and when the call returns it has written the control register four
times, with 0, `0x04`, `0x05` and `0x04`: no write has the interrupt-enable bit 1 set. -/
theorem C15_busy_wait_setup (d : Nat) (s : SysTick) :
    (SysTick_StartBusyWait_setup d s).SYSTICK_RELOAD_REG
      = (SysTick_Init d s).SYSTICK_RELOAD_REG ∧
    (((SysTick_StartBusyWait_setup d s).SYSTICK_RELOAD_REG : Nat) : Int)
      = ((d : Int) * 16000 - 1) % 2 ^ 32 ∧
    (SysTick_StartBusyWait_setup d s).SYSTICK_CURRENT_REG = 0 ∧
    (SysTick_Init d s).SYSTICK_CURRENT_REG = 0 ∧
    (SysTick_StartBusyWait_setup d s).SYSTICK_CTRL_REG = 0x05 ∧
    (SysTick_StartBusyWait_setup d s).trace = s.trace ++
      [Event.write SysTickReg.CTRL 0,
       Event.write SysTickReg.RELOAD (SysTick_Init d s).SYSTICK_RELOAD_REG,
       Event.write SysTickReg.CURRENT 0,
       Event.write SysTickReg.CTRL 0x04,
       Event.write SysTickReg.CTRL 0x05] ∧
    (SysTick_Init d s).trace = s.trace ++
      [Event.write SysTickReg.CTRL 0,
       Event.write SysTickReg.RELOAD (SysTick_Init d s).SYSTICK_RELOAD_REG,
       Event.write SysTickReg.CURRENT 0,
       Event.write SysTickReg.CTRL 0x06,
       Event.write SysTickReg.CTRL 0x07] ∧
    (∀ hw fuel s1 k, SysTick_StartBusyWait d hw fuel s = some (s1, k) →
      s1.SYSTICK_RELOAD_REG = (SysTick_Init d s).SYSTICK_RELOAD_REG ∧
      s1.SYSTICK_CURRENT_REG = 0 ∧
      ctrlWrites (s1.trace.drop s.trace.length) = [0, 0x04, 0x05, 0x04] ∧
      ∀ v, v ∈ ctrlWrites (s1.trace.drop s.trace.length) → v.testBit 1 = false) := by
  have hr := SysTick_reload_eq d s
  refine ⟨by rw [hr.1, hr.2], ?_, rfl, rfl, ?_, SysTick_StartBusyWait_setup_trace d s,
    SysTick_Init_trace d s, ?_⟩
  · rw [hr.2]; omega
  · show ((((0 % 2 ^ 32) % 2 ^ 32 ||| 0x04) % 2 ^ 32) % 2 ^ 32 ||| 0x01) % 2 ^ 32 = 0x05
    decide
  · intro hw fuel s1 k h
    unfold SysTick_StartBusyWait at h
    cases hp : SysTick_poll hw fuel 0 with
    | none => rw [hp] at h; exact Option.noConfusion h
    | some n =>
      rw [hp] at h
      have hs1 : SysTick_Stop (SysTick_StartBusyWait_setup d s) = s1 :=
        congrArg Prod.fst (Option.some.inj h)
      have hc : (SysTick_StartBusyWait_setup d s).readCtrl = 0x05 := by
        show (((((0 % 2 ^ 32) % 2 ^ 32 ||| 0x04) % 2 ^ 32) % 2 ^ 32 ||| 0x01) % 2 ^ 32)
          % 2 ^ 32 = 0x05
        decide
      have ht : s1.trace = s.trace ++
          [Event.write SysTickReg.CTRL 0,
           Event.write SysTickReg.RELOAD (SysTick_Init d s).SYSTICK_RELOAD_REG,
           Event.write SysTickReg.CURRENT 0,
           Event.write SysTickReg.CTRL 0x04,
           Event.write SysTickReg.CTRL 0x05,
           Event.write SysTickReg.CTRL 0x04] := by
        rw [← hs1]
        show (SysTick_StartBusyWait_setup d s).trace ++
          [Event.write SysTickReg.CTRL
            (((SysTick_StartBusyWait_setup d s).readCtrl &&& not32 0x01) % 2 ^ 32)] = _
        rw [hc, SysTick_StartBusyWait_setup_trace, List.append_assoc]
        have h4 : ((0x05 : Nat) &&& not32 0x01) % 2 ^ 32 = 0x04 := by decide
        rw [h4]
        rfl
      have hw4 : ctrlWrites (s1.trace.drop s.trace.length) = [0, 0x04, 0x05, 0x04] := by
        rw [ht, List.drop_left]
        rfl
      refine ⟨?_, ?_, hw4, ?_⟩
      · rw [← hs1]
        show (SysTick_StartBusyWait_setup d s).SYSTICK_RELOAD_REG = _
        rw [hr.1, hr.2]
      · rw [← hs1]; rfl
      · intro v hv
        rw [hw4] at hv
        simp only [List.mem_cons, List.mem_singleton, List.not_mem_nil, or_false] at hv
        rcases hv with rfl | rfl | rfl | rfl <;> decide

/-- C15 with a 50 ms wait from a running interrupt-mode timer, the flag showing at the
second polling read. -/
theorem C15_busy_wait_setup_witness :
    ∃ s1, SysTick_StartBusyWait 50 (fun n => if n = 0 then 0x05 else 0x10005) 2
        (SysTick.boot 0x07 5 3) = some (s1, 1) ∧
      ctrlWrites (s1.trace.drop (SysTick.boot 0x07 5 3).trace.length) = [0, 0x04, 0x05, 0x04] :=
  ⟨SysTick_Stop (SysTick_StartBusyWait_setup 50 (SysTick.boot 0x07 5 3)), rfl,
    ((C15_busy_wait_setup 50 (SysTick.boot 0x07 5 3)).2.2.2.2.2.2.2
      (fun n => if n = 0 then 0x05 else 0x10005) 2 _ 1 rfl).2.2.1⟩

/-- C16: for a 16-bit duration `d`, the reload value stored by `SysTick_Init` (and by
`SysTick_StartBusyWait`) is, for `d` in 1..65535, exactly `d * 16000 - 1` with no wrap, at
most 1048559999; it is below `2 ^ 24` exactly when `1 ≤ d ≤ 1048`; and for `d = 0` it is
`2 ^ 32 - 1`. -/
theorem C16_reload_range (d : Nat) (hd : d < 2 ^ 16) (s : SysTick) :
    (1 ≤ d → (SysTick_Init d s).SYSTICK_RELOAD_REG = d * 16000 - 1
      ∧ (SysTick_Init d s).SYSTICK_RELOAD_REG ≤ 1048559999) ∧
    ((SysTick_Init d s).SYSTICK_RELOAD_REG < 2 ^ 24 ↔ 1 ≤ d ∧ d ≤ 1048) ∧
    (d = 0 → (SysTick_Init d s).SYSTICK_RELOAD_REG = 2 ^ 32 - 1) ∧
    (SysTick_StartBusyWait_setup d s).SYSTICK_RELOAD_REG
      = (SysTick_Init d s).SYSTICK_RELOAD_REG := by
  have hr := SysTick_reload_eq d s
  have hd2 : d < 65536 := hd
  have hlt : d * 16000 < 2 ^ 32 := by omega
  have hpos : 1 ≤ d → (d * 16000 % 2 ^ 32 + (2 ^ 32 - 1)) % 2 ^ 32 = d * 16000 - 1 := by
    intro h1
    have e : d * 16000 + (2 ^ 32 - 1) = (d * 16000 - 1) + 2 ^ 32 := by omega
    rw [Nat.mod_eq_of_lt hlt, e, Nat.add_mod_right, Nat.mod_eq_of_lt (by omega)]
  have hzero : d = 0 → (d * 16000 % 2 ^ 32 + (2 ^ 32 - 1)) % 2 ^ 32 = 2 ^ 32 - 1 := by
    intro h0
    subst h0
    decide
  rw [hr.1, hr.2]
  refine ⟨?_, ?_, hzero, rfl⟩
  · intro h1
    rw [hpos h1]
    omega
  · constructor
    · intro h
      by_cases h0 : d = 0
      · rw [hzero h0] at h
        omega
      · rw [hpos (by omega)] at h
        omega
    · intro h
      rw [hpos h.1]
      omega

/-- C16 at `d = 1048`, the longest duration whose reload value fits 24 bits, and at
`d = 0`. -/
theorem C16_reload_range_witness :
    1048 < 2 ^ 16 ∧
    ((SysTick_Init 1048 (SysTick.boot 7 5 3)).SYSTICK_RELOAD_REG = 1048 * 16000 - 1
      ∧ (SysTick_Init 1048 (SysTick.boot 7 5 3)).SYSTICK_RELOAD_REG ≤ 1048559999) ∧
    (SysTick_Init 0 (SysTick.boot 7 5 3)).SYSTICK_RELOAD_REG = 2 ^ 32 - 1 :=
  ⟨by decide,
    (C16_reload_range 1048 (by decide) (SysTick.boot 7 5 3)).1 (by decide),
    (C16_reload_range 0 (by decide) (SysTick.boot 7 5 3)).2.2.1 rfl⟩

/-! ## NVIC: priority writes land in the enable bank -/

/-- C17: `NVIC_SetPriorityIRQ` and `NVIC_EnableIRQ` address the same bank at `0xE000E100`,
so priority writes overlap enable bits.  There are identifiers `i`, `j` in 0..136 and a
priority `p` in 0..7 for which, from every state, `NVIC_EnableIRQ j` followed by
`NVIC_SetPriorityIRQ i p` leaves the enable bit of `j` clear: `j = 5`, `i = 0`, `p = 0`
do.  From a bank of zeros `NVIC_SetPriorityIRQ 0 1` sets the enable bit of IRQ 5. -/
theorem C17_priority_write_overlaps_enable :
    (0xE000E100 + 4 * (0 / 4) = 0xE000E100 + 4 * (5 / 32)) ∧
    (∃ i j p, i ≤ 136 ∧ j ≤ 136 ∧ p < 8 ∧ ∀ s : Regs,
      (NVIC_EnableIRQ j s).bit (0xE000E100 + 4 * (j / 32)) (j % 32) = true ∧
      (NVIC_SetPriorityIRQ i p (NVIC_EnableIRQ j s)).bit (0xE000E100 + 4 * (j / 32)) (j % 32)
        = false) ∧
    (∀ s : Regs,
      (NVIC_SetPriorityIRQ 0 0 (NVIC_EnableIRQ 5 s)).bit (0xE000E100 + 4 * (5 / 32)) (5 % 32)
        = false) ∧
    (Regs.zero.bit (0xE000E100 + 4 * (5 / 32)) (5 % 32) = false ∧
      (NVIC_SetPriorityIRQ 0 1 Regs.zero).bit (0xE000E100 + 4 * (5 / 32)) (5 % 32) = true) := by
  have hclear : ∀ s : Regs,
      (NVIC_SetPriorityIRQ 0 0 (NVIC_EnableIRQ 5 s)).bit (0xE000E100 + 4 * (5 / 32)) (5 % 32)
        = false := by
    intro s
    rw [NVIC_SetPriorityIRQ_bit 0 (by decide)]
    simp
  refine ⟨by decide, ⟨0, 5, 0, by decide, by decide, by decide, fun s => ⟨?_, hclear s⟩⟩,
    hclear, by decide⟩
  rw [NVIC_EnableIRQ_bit 5 (by decide)]
  simp

/-! ## NVIC: the two branches of the IRQ priority setter -/

/-- C18: the two branches of `NVIC_SetPriorityIRQ` agree.  The function is the choice
between its two branch statements; for an identifier below 4, where the first branch is
taken, the first branch (shift `id * 8 + 5`) yields the same state, access log included,
as the second (shift `(id mod 4) * 8 + 5`); so for every identifier, priority and state
the function equals the single-branch setter with base `0xE000E100` and limit 136, the
setter that `NVIC_SetPriorityException` is with base `0xE000ED14` and limit 15. -/
theorem C18_priority_branches_agree (n p : Nat) (s : Regs) :
    NVIC_SetPriorityIRQ n p s
      = (if n ≤ 136 then
          (if n >>> 2 = 0 then NVIC_SetPriorityIRQ_firstBranch n p s
            else NVIC_SetPriorityIRQ_secondBranch n p s)
        else s) ∧
    (n < 4 → n >>> 2 = 0 ∧
      NVIC_SetPriorityIRQ_firstBranch n p s = NVIC_SetPriorityIRQ_secondBranch n p s) ∧
    (n ≤ 136 → NVIC_SetPriorityIRQ n p s = NVIC_SetPriorityIRQ_secondBranch n p s) ∧
    NVIC_SetPriorityIRQ n p s = setPrioritySingleBranch 0xE000E100 136 n p s ∧
    NVIC_SetPriorityException n p s = setPrioritySingleBranch 0xE000ED14 15 n p s := by
  have hshape : NVIC_SetPriorityIRQ n p s
      = (if n ≤ 136 then
          (if n >>> 2 = 0 then NVIC_SetPriorityIRQ_firstBranch n p s
            else NVIC_SetPriorityIRQ_secondBranch n p s)
        else s) := rfl
  have hlow : n < 4 → n >>> 2 = 0 ∧
      NVIC_SetPriorityIRQ_firstBranch n p s = NVIC_SetPriorityIRQ_secondBranch n p s := by
    intro hn
    have hm : n % 4 = n := Nat.mod_eq_of_lt hn
    refine ⟨?_, ?_⟩
    · rw [Nat.shiftRight_eq_div_pow]; omega
    · unfold NVIC_SetPriorityIRQ_firstBranch NVIC_SetPriorityIRQ_secondBranch
      rw [hm]
  have hgen : n ≤ 136 → NVIC_SetPriorityIRQ n p s = NVIC_SetPriorityIRQ_secondBranch n p s := by
    intro h
    rw [hshape, if_pos h]
    by_cases h4 : n >>> 2 = 0
    · have hn : n < 4 := by
        rw [Nat.shiftRight_eq_div_pow] at h4
        omega
      rw [if_pos h4, (hlow hn).2]
    · rw [if_neg h4]
  have e58 : 8 * (n % 4) + 5 = n % 4 * 8 + 5 := by omega
  refine ⟨hshape, hlow, hgen, ?_, ?_⟩
  · unfold setPrioritySingleBranch
    by_cases h : n ≤ 136
    · rw [hgen h, if_pos h]
      unfold NVIC_SetPriorityIRQ_secondBranch
      rw [prio_bank, e58]
    · rw [hshape, if_neg h, if_neg h]
  · unfold setPrioritySingleBranch NVIC_SetPriorityException
    rw [prio_bank, e58]

/-- C18 at IRQ 2 (first branch) with priority 5 on a bank of all-ones words. -/
theorem C18_priority_branches_agree_witness :
    2 < 4 ∧ 2 ≤ 136 ∧
    (2 >>> 2 = 0 ∧
      NVIC_SetPriorityIRQ_firstBranch 2 5 (Regs.const 0xFFFFFFFF)
        = NVIC_SetPriorityIRQ_secondBranch 2 5 (Regs.const 0xFFFFFFFF)) ∧
    NVIC_SetPriorityIRQ 2 5 (Regs.const 0xFFFFFFFF)
      = NVIC_SetPriorityIRQ_secondBranch 2 5 (Regs.const 0xFFFFFFFF) :=
  ⟨by decide, by decide,
    (C18_priority_branches_agree 2 5 (Regs.const 0xFFFFFFFF)).2.1 (by decide),
    (C18_priority_branches_agree 2 5 (Regs.const 0xFFFFFFFF)).2.2.1 (by decide)⟩

end CortexM4
